import Mathlib

/-
Shallow embedding of flax/nnx/nnx/filterlib.py: the filter predicate
algebra (atomic predicates, combinators, and the normalizer
`to_predicate`), together with proofs of the spec claims about it.

Modelling conventions:
- Python type descriptors are drawn from an arbitrary type `τ`;
  `issubclass` becomes an abstract boolean relation `sub : τ → τ → Bool`
  passed to evaluation (the code delegates subtype tests to the runtime).
- A value is modelled by its runtime class together with its optional
  capability surface: an optional `tag` string (the `_HasTag` protocol)
  and an optional `type` descriptor (the `_HasType` protocol).
- A user-supplied callable predicate is modelled by an identifier `fn id`
  whose behaviour is given by an environment `fnSem`; equality on
  identifiers mirrors Python function identity equality.
- Exceptions raised by the library become `Except PyError`.
-/

namespace filterlib

/-- A path element (flax.typing.Key): a string or an integer. -/
inductive Key where
  | str (s : String)
  | idx (n : Int)
deriving DecidableEq, Hashable, Repr

/-- flax.typing.PathParts: an ordered sequence of keys. -/
abbrev PathParts := List Key

/-- A tree value as seen by the filter library: its runtime class plus the
optional `tag` and `type` capabilities probed by the `_HasTag` / `_HasType`
runtime-checkable protocols. `tag = none` models absence of a `tag`
attribute, likewise for `type`. -/
structure Value (τ : Type) where
  runtimeType : τ
  tag : Option String
  type : Option τ
deriving DecidableEq

/-- A normalized predicate object. Constructors correspond one-to-one to
the predicate classes of filterlib.py: `WithTag`, `PathContains`,
`OfType`, `Any`, `All`, `Not`, `Everything`, `Nothing`; `fn id` stands
for an arbitrary user-supplied callable. Structural equality of this
inductive mirrors the hand-written `__eq__` methods: each class checks
`isinstance(other, Self)` (distinct constructors are never equal) and
compares its stored fields (`Any`/`All` compare the ordered tuple of
sub-predicates, `Not` its single sub-predicate, `WithTag`/`OfType`/
`PathContains` their parameter); functions compare by identity. -/
inductive Pred (τ : Type) where
  | withTag (tag : String)
  | pathContains (key : Key)
  | ofType (t : τ)
  | anyOf (ps : List (Pred τ))
  | allOf (ps : List (Pred τ))
  | notOf (p : Pred τ)
  | everything
  | nothing
  | fn (id : Nat)
deriving Hashable

/-- A Python exception as raised by the library: the exception class and
its message. -/
inductive PyError where
  | typeError (msg : String)
  | valueError (msg : String)
deriving DecidableEq

/-- A filter literal (the `Filter` union type of filterlib.py): a tag
string, a type descriptor, a boolean, the Ellipsis wildcard, None, an
already-callable predicate, or a list/tuple of filters. The constructors
`set` and `int` model values that are legal Python but fall outside the
shapes recognized by `to_predicate`: a set of filters and an integer. -/
inductive Filter (τ : Type) where
  | str (s : String)
  | ty (t : τ)
  | bool (b : Bool)
  | ellipsis
  | none
  | pred (p : Pred τ)
  | list (fs : List (Filter τ))
  | tuple (fs : List (Filter τ))
  | set (fs : List (Filter τ))
  | int (n : Int)

variable {τ : Type}

mutual
/-- Embeds `to_predicate` of filterlib.py. Each constructor of `Filter`
corresponds to exactly one branch of the source's isinstance dispatch
chain, in the source's precedence order (the shapes are disjoint, so the
chain is an exhaustive case split): str, type, bool, Ellipsis, None,
callable, list/tuple, and the final else branch. The else branch of the
source is `raise TypeError` with the message built by the f-string
`Invalid collection filter: ` followed by the interpolation of `filter`
with format spec `!r` (the source writes a colon before `!r`, making it
a format spec rather than a conversion): evaluating that f-string raises
before the TypeError is constructed — `ValueError: Invalid format
specifier` for an int (int rejects the spec), and `TypeError: unsupported
format string passed to set.__format__` for a set (object.__format__
rejects any non-empty spec). -/
def to_predicate : Filter τ → Except PyError (Pred τ)
  | .str s => .ok (.withTag s)
  | .ty t => .ok (.ofType t)
  | .bool b => if b then .ok .everything else .ok .nothing
  | .ellipsis => .ok .everything
  | .none => .ok .nothing
  | .pred p => .ok p
  | .list fs => (to_predicates fs).map Pred.anyOf
  | .tuple fs => (to_predicates fs).map Pred.anyOf
  | .set _ =>
      .error (.typeError "unsupported format string passed to set.__format__")
  | .int _ => .error (.valueError "Invalid format specifier")

/-- Left-to-right normalization of a sequence of filters, as done by the
generator expression `tuple(to_predicate(f) for f in filters)` inside the
combinator constructors: the first exception propagates. -/
def to_predicates : List (Filter τ) → Except PyError (List (Pred τ))
  | [] => .ok []
  | f :: fs =>
    match to_predicate f with
    | .error e => .error e
    | .ok p =>
      match to_predicates fs with
      | .error e => .error e
      | .ok ps => .ok (p :: ps)
end

/-- Embeds the constructor of class `Any`: normalize every argument with
`to_predicate` and store the resulting ordered tuple of predicates. -/
def Any (fs : List (Filter τ)) : Except PyError (Pred τ) :=
  (to_predicates fs).map Pred.anyOf

/-- Embeds the constructor of class `All`: normalize every argument with
`to_predicate` and store the resulting ordered tuple of predicates. -/
def All (fs : List (Filter τ)) : Except PyError (Pred τ) :=
  (to_predicates fs).map Pred.allOf

/-- Embeds the constructor of class `Not` (named `NotP` here because `Not`
is taken by the logical connective): normalize the single argument with
`to_predicate` and store the resulting predicate. -/
def NotP (f : Filter τ) : Except PyError (Pred τ) :=
  (to_predicate f).map Pred.notOf

/-- The `isinstance(x, T)` check: the runtime class of `x` is `T` or a
subclass of `T`, under the ambient subclass relation `sub`. -/
def isinstance (sub : τ → τ → Bool) (x : Value τ) (T : τ) : Bool :=
  sub x.runtimeType T

mutual
/-- Evaluation of a predicate object at a (path, value) pair: the bodies
of the `__call__` methods of filterlib.py. `sub` embeds `issubclass` and
`fnSem` gives the behaviour of user-supplied callables.
- `WithTag`: `isinstance(x, _HasTag) and x.tag == self.tag` — the value
  has a tag capability and it equals the stored tag.
- `PathContains`: `self.key in path`.
- `OfType`: `isinstance(x, self.type) or (isinstance(x, _HasType) and
  issubclass(x.type, self.type))`.
- `Any`/`All`: `any`/`all` of the sub-predicates, evaluated left to right
  with short-circuiting.
- `Not`: negation. `Everything`: true. `Nothing`: false. -/
def eval (sub : τ → τ → Bool) (fnSem : Nat → PathParts → Value τ → Bool) :
    Pred τ → PathParts → Value τ → Bool
  | .withTag t, _, x =>
    match x.tag with
    | Option.some s => s == t
    | Option.none => false
  | .pathContains k, path, _ => path.contains k
  | .ofType T, _, x =>
    isinstance sub x T ||
      (match x.type with
       | Option.some S => sub S T
       | Option.none => false)
  | .anyOf ps, path, x => evalAny sub fnSem ps path x
  | .allOf ps, path, x => evalAll sub fnSem ps path x
  | .notOf p, path, x => !eval sub fnSem p path x
  | .everything, _, _ => true
  | .nothing, _, _ => false
  | .fn id, path, x => fnSem id path x

/-- Short-circuit `any(predicate(path, x) for predicate in ...)`. -/
def evalAny (sub : τ → τ → Bool) (fnSem : Nat → PathParts → Value τ → Bool) :
    List (Pred τ) → PathParts → Value τ → Bool
  | [], _, _ => false
  | p :: ps, path, x =>
    eval sub fnSem p path x || evalAny sub fnSem ps path x

/-- Short-circuit `all(predicate(path, x) for predicate in ...)`. -/
def evalAll (sub : τ → τ → Bool) (fnSem : Nat → PathParts → Value τ → Bool) :
    List (Pred τ) → PathParts → Value τ → Bool
  | [], _, _ => true
  | p :: ps, path, x =>
    eval sub fnSem p path x && evalAll sub fnSem ps path x
end

/-- Number of leading `Not` wrappers on a predicate object; used to show
that no double-negation simplification is ever performed. -/
def ndepth : Pred τ → Nat
  | .notOf p => ndepth p + 1
  | _ => 0

/-- A concrete subclass relation on a toy universe of classes numbered by
naturals, used to evaluate the theorems at concrete inputs: class `a` is
a subclass of class `b` iff `a ≤ b` (reflexive and transitive, like
`issubclass`). -/
def subNat : Nat → Nat → Bool := fun a b => Nat.ble a b

/-- A concrete environment for user-supplied callables in which every
callable returns false; used to evaluate the theorems at concrete inputs. -/
def fnNone : Nat → PathParts → Value Nat → Bool := fun _ _ _ => false

theorem evalAny_eq (sub : τ → τ → Bool)
    (fnSem : Nat → PathParts → Value τ → Bool) (ps : List (Pred τ))
    (path : PathParts) (x : Value τ) :
    evalAny sub fnSem ps path x = ps.any (fun p => eval sub fnSem p path x) := by
  induction ps with
  | nil => simp [evalAny]
  | cons p ps ih => simp [evalAny, ih]

theorem evalAll_eq (sub : τ → τ → Bool)
    (fnSem : Nat → PathParts → Value τ → Bool) (ps : List (Pred τ))
    (path : PathParts) (x : Value τ) :
    evalAll sub fnSem ps path x = ps.all (fun p => eval sub fnSem p path x) := by
  induction ps with
  | nil => simp [evalAll]
  | cons p ps ih => simp [evalAll, ih]

theorem to_predicates_map_pred (ps : List (Pred τ)) :
    to_predicates (ps.map Filter.pred) = Except.ok ps := by
  induction ps with
  | nil => simp [to_predicates]
  | cons p ps ih => simp [to_predicates, to_predicate, ih]

/-- Claim C1: `to_predicate` dispatches on the shape of its argument in the
source's precedence order — a string yields `WithTag` of that string, a
type yields `OfType` of that type, `True` yields `Everything()`, `False`
yields `Nothing()`, Ellipsis yields `Everything()`, `None` yields
`Nothing()`, and a callable is returned unchanged — and the resulting
predicates evaluate accordingly: `Everything` is true and `Nothing` is
false on every (path, value) pair. -/
theorem C1_to_predicate_dispatch (sub : τ → τ → Bool)
    (fnSem : Nat → PathParts → Value τ → Bool) :
    (∀ s : String, to_predicate (Filter.str s : Filter τ) =
      Except.ok (Pred.withTag s)) ∧
    (∀ t : τ, to_predicate (Filter.ty t) = Except.ok (Pred.ofType t)) ∧
    to_predicate (Filter.bool true : Filter τ) = Except.ok Pred.everything ∧
    to_predicate (Filter.bool false : Filter τ) = Except.ok Pred.nothing ∧
    to_predicate (Filter.ellipsis : Filter τ) = Except.ok Pred.everything ∧
    to_predicate (Filter.none : Filter τ) = Except.ok Pred.nothing ∧
    (∀ p : Pred τ, to_predicate (Filter.pred p) = Except.ok p) ∧
    (∀ path x, eval sub fnSem Pred.everything path x = true) ∧
    (∀ path x, eval sub fnSem Pred.nothing path x = false) := by
  refine ⟨fun s => ?_, fun t => ?_, ?_, ?_, ?_, ?_, fun p => ?_,
    fun path x => ?_, fun path x => ?_⟩ <;> simp [to_predicate, eval]

/-- Claim C2 (failing input): normalizing the unrecognized literal `42`
does raise at normalization time, but the exception is a `ValueError`
from evaluating the f-string `Invalid collection filter: ` with format
spec `!r` (a slip for the `!r` conversion), not the intended descriptive
`TypeError` naming the value. -/
theorem C2_invalid_int_raises :
    to_predicate (Filter.int 42 : Filter Nat) =
      Except.error (PyError.valueError "Invalid format specifier") ∧
    to_predicate (Filter.int 42 : Filter Nat) ≠
      Except.error (PyError.typeError "Invalid collection filter: 42. ") := by
  constructor
  · simp [to_predicate]
  · simp [to_predicate]

/-- Claim C3 (counterexample): a set of filter literals is NOT normalized
to a disjunction — `isinstance(filter, (list, tuple))` rejects sets, so a
set falls through to the error branch and normalization raises (a
`TypeError` coming from `set.__format__` rejecting the f-string's format
spec) instead of returning `Any(...)`. -/
theorem C3_set_counterexample :
    to_predicate (Filter.set [Filter.bool true] : Filter Nat) =
      Except.error
        (PyError.typeError "unsupported format string passed to set.__format__") ∧
    to_predicate (Filter.set [Filter.bool true] : Filter Nat) ≠
      Except.ok (Pred.anyOf [Pred.everything]) := by
  constructor
  · simp [to_predicate]
  · simp [to_predicate]

/-- Claim C3 (amended): only list and tuple collections are normalized to
the disjunction `Any` over the recursively normalized elements; in
particular `to_predicate([f1, f2])` and `to_predicate((f1, f2))` equal
`Any(to_predicate(f1), to_predicate(f2))`. -/
theorem C3_list_tuple_any (f1 f2 : Filter τ) (p1 p2 : Pred τ)
    (h1 : to_predicate f1 = Except.ok p1)
    (h2 : to_predicate f2 = Except.ok p2) :
    to_predicate (Filter.list [f1, f2]) = Except.ok (Pred.anyOf [p1, p2]) ∧
    to_predicate (Filter.tuple [f1, f2]) = Except.ok (Pred.anyOf [p1, p2]) ∧
    Any [Filter.pred p1, Filter.pred p2] = Except.ok (Pred.anyOf [p1, p2]) ∧
    (∀ fs : List (Filter τ), to_predicate (Filter.list fs) = Any fs ∧
      to_predicate (Filter.tuple fs) = Any fs) := by
  refine ⟨?_, ?_, ?_, fun fs => ⟨?_, ?_⟩⟩ <;>
    simp [to_predicate, to_predicates, Any, Except.map, h1, h2]

theorem C3_list_tuple_any_witness :
    to_predicate (Filter.list [Filter.str "a", Filter.bool true] : Filter Nat) =
      Except.ok (Pred.anyOf [Pred.withTag "a", Pred.everything]) :=
  (C3_list_tuple_any (Filter.str "a") (Filter.bool true)
    (Pred.withTag "a") Pred.everything (by simp [to_predicate])
    (by simp [to_predicate])).1

/-- Claim C4: `OfType(T)` matches exactly the values that are instances of
`T` or expose a `type` capability whose descriptor is a subtype of `T`
(under the ambient subclass relation, which like `issubclass` relates
every type to itself); consequently a wrapper whose `type` capability is
unrelated to `T` does not match, and a value that is neither an instance
of `T` nor carries a `type` capability does not match, whatever the path. -/
theorem C4_OfType_matches (sub : τ → τ → Bool)
    (fnSem : Nat → PathParts → Value τ → Bool) (T : τ) (path : PathParts)
    (x : Value τ) :
    eval sub fnSem (Pred.ofType T) path x = true ↔
      (isinstance sub x T = true ∨
        ∃ S, x.type = Option.some S ∧ sub S T = true) := by
  obtain ⟨rt, tg, ty⟩ := x
  cases ty <;> simp [eval, isinstance]

/-- Claim C5: `Any()` with zero sub-filters stores the empty tuple and
evaluates false everywhere; `All()` with zero sub-filters stores the
empty tuple and evaluates true everywhere; in general `Any` is true iff
at least one stored sub-predicate is true and `All` is true iff every
stored sub-predicate is true. -/
theorem C5_any_all_identities (sub : τ → τ → Bool)
    (fnSem : Nat → PathParts → Value τ → Bool) :
    Any ([] : List (Filter τ)) = Except.ok (Pred.anyOf []) ∧
    All ([] : List (Filter τ)) = Except.ok (Pred.allOf []) ∧
    (∀ path x, eval sub fnSem (Pred.anyOf ([] : List (Pred τ))) path x = false) ∧
    (∀ path x, eval sub fnSem (Pred.allOf ([] : List (Pred τ))) path x = true) ∧
    (∀ ps path x, eval sub fnSem (Pred.anyOf ps) path x = true ↔
      ∃ p ∈ ps, eval sub fnSem p path x = true) ∧
    (∀ ps path x, eval sub fnSem (Pred.allOf ps) path x = true ↔
      ∀ p ∈ ps, eval sub fnSem p path x = true) := by
  refine ⟨?_, ?_, fun path x => ?_, fun path x => ?_,
    fun ps path x => ?_, fun ps path x => ?_⟩
  · simp [Any, to_predicates, Except.map]
  · simp [All, to_predicates, Except.map]
  · simp [eval, evalAny]
  · simp [eval, evalAll]
  · rw [show eval sub fnSem (Pred.anyOf ps) path x =
      evalAny sub fnSem ps path x from rfl, evalAny_eq]
    simp [List.any_eq_true]
  · rw [show eval sub fnSem (Pred.allOf ps) path x =
      evalAll sub fnSem ps path x from rfl, evalAll_eq]
    simp [List.all_eq_true]

/-- Claim C6: `to_predicate` is idempotent — the predicate it returns is a
callable, so feeding it back through `to_predicate` takes the callable
branch and returns it unchanged. -/
theorem C6_idempotent (f : Filter τ) :
    (to_predicate f).bind (fun p => to_predicate (Filter.pred p)) =
      to_predicate f ∧
    (∀ p, to_predicate f = Except.ok p →
      to_predicate (Filter.pred p) = Except.ok p) := by
  constructor
  · cases h : to_predicate f <;> simp [to_predicate, Except.bind, h]
  · intro p _
    simp [to_predicate]

theorem C6_idempotent_witness :
    to_predicate (Filter.pred (Pred.withTag "a") : Filter Nat) =
      Except.ok (Pred.withTag "a") :=
  (C6_idempotent (Filter.str "a")).2 (Pred.withTag "a") (by simp [to_predicate])

/-- Claim C7 (counterexample): reordering two distinct sub-filters does
not always break equality of the built combinators — the distinct
literals `True` and Ellipsis both normalize to `Everything()`, so
`Any(True, ...)` and `Any(..., True)` store the same ordered tuple of
predicates and are equal. -/
theorem C7_reorder_counterexample :
    Filter.bool true ≠ (Filter.ellipsis : Filter Nat) ∧
    Any [Filter.bool true, Filter.ellipsis] =
      Any ([Filter.ellipsis, Filter.bool true] : List (Filter Nat)) := by
  constructor
  · simp
  · simp [Any, to_predicates, to_predicate, Except.map]

/-- Claim C7 (amended): equality of `Any`/`All` objects is structural —
same combinator class and same ordered tuple of normalized
sub-predicates — so instances built from equal ordered sequences are
equal and hash-equal, an `Any` is never equal to an `All`, and swapping
two sub-predicates breaks equality when the normalized sub-predicates
are distinct (not merely when the sub-filter literals are distinct). -/
theorem C7_structural_equality [Hashable τ] (ps qs : List (Pred τ)) :
    (Pred.anyOf ps = Pred.anyOf qs ↔ ps = qs) ∧
    (Pred.allOf ps = Pred.allOf qs ↔ ps = qs) ∧
    (ps = qs → hash (Pred.anyOf ps) = hash (Pred.anyOf qs) ∧
      hash (Pred.allOf ps) = hash (Pred.allOf qs)) ∧
    Pred.anyOf ps ≠ Pred.allOf qs ∧
    (∀ p q : Pred τ, p ≠ q →
      Pred.anyOf [p, q] ≠ Pred.anyOf [q, p] ∧
      Pred.allOf [p, q] ≠ Pred.allOf [q, p]) := by
  refine ⟨by simp, by simp, fun h => by rw [h]; exact ⟨rfl, rfl⟩, by simp,
    fun p q hpq => ⟨fun h => ?_, fun h => ?_⟩⟩
  · simp at h
    exact hpq h.1
  · simp at h
    exact hpq h.1

theorem C7_structural_equality_witness :
    (Pred.anyOf [Pred.withTag "a", Pred.withTag "b"] : Pred Nat) ≠
      Pred.anyOf [Pred.withTag "b", Pred.withTag "a"] :=
  ((C7_structural_equality (τ := Nat) [] []).2.2.2.2
    (Pred.withTag "a") (Pred.withTag "b") (by simp)).1

/-- Claim C8: `WithTag(t)` is true exactly on values whose `tag` capability
equals `t`; the path argument never affects the result, and a value with
no `tag` capability evaluates to false rather than raising. -/
theorem C8_WithTag_matches (sub : τ → τ → Bool)
    (fnSem : Nat → PathParts → Value τ → Bool) (t : String)
    (path : PathParts) (x : Value τ) :
    (eval sub fnSem (Pred.withTag t) path x = true ↔
      x.tag = Option.some t) ∧
    (∀ path2, eval sub fnSem (Pred.withTag t) path2 x =
      eval sub fnSem (Pred.withTag t) path x) ∧
    (∀ rt ty, eval sub fnSem (Pred.withTag t) path
      (Value.mk rt Option.none ty) = false) := by
  obtain ⟨rt, tg, ty⟩ := x
  cases tg <;> simp [eval]

theorem C8_WithTag_matches_witness :
    eval subNat fnNone (Pred.withTag "a") []
      (Value.mk 0 (Option.some "a") Option.none) = true :=
  (C8_WithTag_matches subNat fnNone "a" []
    (Value.mk 0 (Option.some "a") Option.none)).1.mpr rfl

/-- Claim C9: `Not(Not(f))` evaluates identically to the normalization of
`f` on every (path, value) pair, yet is never structurally equal to it:
the outer `Not` receives the callable inner `Not` object unchanged from
`to_predicate`, and no double-negation simplification is performed. -/
theorem C9_double_negation (sub : τ → τ → Bool)
    (fnSem : Nat → PathParts → Value τ → Bool) (f : Filter τ) (p : Pred τ)
    (h : to_predicate f = Except.ok p) :
    NotP f = Except.ok (Pred.notOf p) ∧
    NotP (Filter.pred (Pred.notOf p)) =
      Except.ok (Pred.notOf (Pred.notOf p)) ∧
    (∀ path x, eval sub fnSem (Pred.notOf (Pred.notOf p)) path x =
      eval sub fnSem p path x) ∧
    Pred.notOf (Pred.notOf p) ≠ p := by
  refine ⟨?_, ?_, fun path x => ?_, fun hc => ?_⟩
  · simp [NotP, h, Except.map]
  · simp [NotP, to_predicate, Except.map]
  · simp [eval]
  · have h2 := congrArg ndepth hc
    simp only [ndepth] at h2
    omega

theorem C9_double_negation_witness :
    Pred.notOf (Pred.notOf (Pred.withTag "a")) ≠ (Pred.withTag "a" : Pred Nat) :=
  (C9_double_negation subNat fnNone (Filter.str "a") (Pred.withTag "a")
    (by simp [to_predicate])).2.2.2

/-- Claim C10: because `Any`, `All` and `Not` normalize every argument with
`to_predicate` at construction time, building a combinator from raw
filter literals yields the same (hence hash-equal) object as building it
from the corresponding already-normalized predicates. -/
theorem C10_normalization_invariant [Hashable τ] (fs : List (Filter τ))
    (ps : List (Pred τ)) (h : to_predicates fs = Except.ok ps) :
    Any fs = Any (ps.map Filter.pred) ∧
    All fs = All (ps.map Filter.pred) ∧
    (Any fs).map (hash : Pred τ → UInt64) =
      (Any (ps.map Filter.pred)).map (hash : Pred τ → UInt64) ∧
    (∀ f p, to_predicate f = Except.ok p →
      NotP f = NotP (Filter.pred p) ∧
      (NotP f).map (hash : Pred τ → UInt64) =
        (NotP (Filter.pred p)).map (hash : Pred τ → UInt64)) := by
  have hmap := to_predicates_map_pred (τ := τ) ps
  refine ⟨?_, ?_, ?_, fun f p hp => ?_⟩
  · simp [Any, h, hmap]
  · simp [All, h, hmap]
  · simp [Any, h, hmap]
  · constructor <;> simp [NotP, hp, to_predicate]

theorem C10_normalization_invariant_witness :
    Any [Filter.str "a", Filter.ty (0 : Nat)] =
      Any [Filter.pred (Pred.withTag "a"), Filter.pred (Pred.ofType 0)] :=
  (C10_normalization_invariant [Filter.str "a", Filter.ty (0 : Nat)]
    [Pred.withTag "a", Pred.ofType 0]
    (by simp [to_predicates, to_predicate])).1

theorem C1_to_predicate_dispatch_witness :
    to_predicate (Filter.str "a" : Filter Nat) =
      Except.ok (Pred.withTag "a") :=
  (C1_to_predicate_dispatch subNat fnNone).1 "a"

theorem C4_OfType_matches_witness :
    eval subNat fnNone (Pred.ofType 2) []
      (Value.mk 5 Option.none (Option.some 1)) = true :=
  (C4_OfType_matches subNat fnNone 2 []
    (Value.mk 5 Option.none (Option.some 1))).mpr
    (Or.inr ⟨1, rfl, rfl⟩)

theorem C5_any_all_identities_witness :
    Any ([] : List (Filter Nat)) = Except.ok (Pred.anyOf []) ∧
    eval subNat fnNone (Pred.anyOf []) [] (Value.mk 0 Option.none Option.none) =
      false :=
  ⟨(C5_any_all_identities subNat fnNone).1,
    (C5_any_all_identities subNat fnNone).2.2.1 []
      (Value.mk 0 Option.none Option.none)⟩

end filterlib
